import Mathlib

/-!
# Verification of the SaaS reviews scraper

A shallow embedding in Lean 4 of the review-collection pipeline from the
`web-scrapper` repository (`index.js`, `scrapers/base-scraper.js`,
`scrapers/g2-scraper.js`, `scrapers/capterra-scraper.js`, `utils/helpers.js`),
together with proofs about its behaviour.

Modelling conventions:
* JavaScript strings are Lean `String`s; `null`/`undefined` string fields are
  `Option String` with `none`; the JS falsy test `!s` on a string field is
  "`none` or the empty string".
* Numbers that only ever hold ratings are modelled as `ℚ` (the repository
  performs only comparisons, one multiplication/division by 10 and one
  rounding on them).
* The `moment` date library is modelled on the ISO `YYYY-MM-DD` format, the
  format the CLI validates and the one `parseDate` normalises to: a string
  parses iff it is a syntactically valid ISO calendar date, and parsing yields
  a value that orders chronologically.
* `Array.prototype.sort` (required stable by ES2019) is modelled as a stable
  insertion sort with the source's comparator.
* The headless-browser "page driver" is an explicit environment: per-page
  navigation success, page title and extracted records are inputs.
* Every `throw` inside a scraper's `scrapeReviews` is caught by its own
  surrounding `try/catch`, which returns `[]`; the embedding therefore returns
  values on those paths.
-/

namespace Scraper

/-! ## String helpers -/

/-- JS `String.prototype.toLowerCase`, modelled on ASCII via `Char.toLower`. -/
def jsToLower (s : String) : String :=
  ⟨s.data.map Char.toLower⟩

/-- JS `String.prototype.slice(0, n)`. -/
def strTake (s : String) (n : Nat) : String :=
  ⟨s.data.take n⟩

/-- `replace(/\s+/g, '')`: remove every whitespace character. -/
def removeWs (s : String) : String :=
  ⟨s.data.filter (fun c => !c.isWhitespace)⟩

/-- Whether the first list is an initial segment of the second. -/
def isPreOf : List Char → List Char → Bool
  | [], _ => true
  | _ :: _, [] => false
  | a :: as, b :: bs => a = b && isPreOf as bs

/-- Whether `pat` occurs contiguously inside `l`. -/
def occursIn (pat : List Char) : List Char → Bool
  | [] => decide (pat = [])
  | c :: cs => isPreOf pat (c :: cs) || occursIn pat cs

/-- JS `String.prototype.includes`: substring containment. -/
def strContains (s pat : String) : Bool :=
  occursIn pat.data s.data

/-- One pass of whitespace-run collapsing; the flag records whether the
previous character was whitespace. -/
def collapseWsAux : Bool → List Char → List Char
  | _, [] => []
  | prevWs, c :: cs =>
    if c.isWhitespace then
      if prevWs then collapseWsAux true cs
      else ' ' :: collapseWsAux true cs
    else c :: collapseWsAux false cs

/-- Trim leading and trailing whitespace from a character list. -/
def trimChars (l : List Char) : List Char :=
  ((l.dropWhile Char.isWhitespace).reverse.dropWhile Char.isWhitespace).reverse

/-- `Helpers.cleanText` (utils/helpers.js): collapse whitespace runs to a
single space, then trim; `null` input yields the empty string. -/
def cleanText (t : Option String) : String :=
  match t with
  | none => ""
  | some s => ⟨trimChars (collapseWsAux false s.data)⟩

/-! ## The moment date model -/

/-- Whether a year is a leap year (Gregorian rule). -/
def isLeap (y : Nat) : Bool :=
  (y % 4 = 0 && y % 100 ≠ 0) || y % 400 = 0

/-- Days in a month. -/
def daysInMonth (y m : Nat) : Nat :=
  if m = 1 ∨ m = 3 ∨ m = 5 ∨ m = 7 ∨ m = 8 ∨ m = 10 ∨ m = 12 then 31
  else if m = 4 ∨ m = 6 ∨ m = 9 ∨ m = 11 then 30
  else if isLeap y then 29 else 28

/-- Numeric value of a decimal digit character, if it is one. -/
def digitVal (c : Char) : Option Nat :=
  if c.isDigit then some (c.toNat - 48) else none

/-- Model of `moment(s)` / `moment(s, 'YYYY-MM-DD', true)`: parse an ISO
`YYYY-MM-DD` calendar date into a value that orders chronologically
(`y*10000 + m*100 + d`); `none` models an invalid moment. -/
def momentParse (s : String) : Option Nat :=
  match s.data with
  | [y1, y2, y3, y4, h1, m1, m2, h2, d1, d2] =>
    match digitVal y1, digitVal y2, digitVal y3, digitVal y4,
          digitVal m1, digitVal m2, digitVal d1, digitVal d2 with
    | some a, some b, some c, some d, some e, some f, some g, some h =>
      if h1 = '-' ∧ h2 = '-' then
        let y := ((a * 10 + b) * 10 + c) * 10 + d
        let m := e * 10 + f
        let dd := g * 10 + h
        if 1 ≤ m ∧ m ≤ 12 ∧ 1 ≤ dd ∧ dd ≤ daysInMonth y m then
          some (y * 10000 + m * 100 + dd)
        else none
      else none
    | _, _, _, _, _, _, _, _ => none
  | _ => none

/-- `Helpers.validateDate`: strict `YYYY-MM-DD` validity. -/
def validateDate (s : String) : Bool :=
  (momentParse s).isSome

/-- `Helpers.parseDate`: normalise a date string to `YYYY-MM-DD` or `null`.
In the ISO model a parsable string reformats to itself. -/
def parseDate (s : Option String) : Option String :=
  match s with
  | none => none
  | some str =>
    match momentParse str with
    | some _ => some str
    | none => none

/-- `Helpers.isDateInRange`: `moment(date).isBetween(start, end, null, '[]')`,
`false` when any of the three moments is invalid. -/
def isDateInRange (dateS startS endS : String) : Bool :=
  match momentParse dateS, momentParse startS, momentParse endS with
  | some d, some s, some e => decide (s ≤ d ∧ d ≤ e)
  | _, _, _ => false

/-! ## Ratings -/

/-- JS `Math.round` on a rational: `⌊x + 1/2⌋` (ties toward `+∞`). -/
def jsRound (x : ℚ) : ℤ :=
  ⌊x + 1 / 2⌋

/-- `Helpers.normalizeRating` with `maxRating = 5`:
`if (!rating || rating < 0) return 0; if (rating > 5) return 5;
return Math.round(rating * 10) / 10;`.  The falsy test `!rating` is true for
`null` and for `0`. -/
def normalizeRating (rating : Option ℚ) : ℚ :=
  match rating with
  | none => 0
  | some q =>
    if q = 0 ∨ q < 0 then 0
    else if q > 5 then 5
    else (jsRound (q * 10) : ℚ) / 10

/-! ## Records -/

/-- A raw review record as produced by an adapter's DOM extraction. -/
structure Review where
  id : Option String := none
  title : Option String := none
  content : Option String := none
  rating : Option ℚ := none
  author : Option String := none
  date : Option String := none
  source : Option String := none
  pros : Option String := none
  cons : Option String := none
deriving DecidableEq, Repr

/-- The normalised output record built by `Helpers.createReviewObject`. -/
structure ReviewOut where
  id : Option String
  title : Option String
  content : Option String
  rating : Option ℚ
  author : Option String
  date : Option String
  source : Option String
  pros : Option String
  cons : Option String
  scraped_at : String
deriving DecidableEq, Repr

/-- JS `x || null` on a string value: empty string collapses to `null`. -/
def strOrNull (s : String) : Option String :=
  if s = "" then none else some s

/-- `Helpers.createReviewObject`: normalise every field.  `now` stands for
`moment().format('YYYY-MM-DD HH:mm:ss')`, an input of the model.
Note `normalizeRating(r) || null`: a normalised rating of `0` is stored as
`null`. -/
def createReviewObject (now : String) (data : Review) : ReviewOut :=
  { id := data.id
    title := strOrNull (cleanText data.title)
    content := strOrNull (cleanText data.content)
    rating := (fun nr => if nr = 0 then none else some nr) (normalizeRating data.rating)
    author := strOrNull (cleanText data.author)
    date := parseDate data.date
    source := data.source
    pros := strOrNull (cleanText data.pros)
    cons := strOrNull (cleanText data.cons)
    scraped_at := now }

/-! ## Deduplication (`SaaSReviewsScraper.removeDuplicates` / `createReviewHash`) -/

/-- `createReviewHash` (index.js):
`` `${content}_${author}_${date}`.toLowerCase().replace(/\s+/g, '') `` where
`content` is `(review.content || '').slice(0, 100)`. -/
def createReviewHash (r : Review) : String :=
  let content := strTake (r.content.getD "") 100
  let author := r.author.getD ""
  let date := r.date.getD ""
  removeWs (jsToLower (content ++ "_" ++ author ++ "_" ++ date))

/-- The loop body of `removeDuplicates`: walk the input, carrying the `seen`
hash set and the `uniqueReviews` array being pushed to. -/
def removeDuplicatesAux : List String → List Review → List Review → List Review
  | _, acc, [] => acc
  | seen, acc, r :: rest =>
    let h := createReviewHash r
    if h ∈ seen then removeDuplicatesAux seen acc rest
    else removeDuplicatesAux (h :: seen) (acc ++ [r]) rest

/-- `SaaSReviewsScraper.removeDuplicates` (index.js): first-seen-wins
deduplication keyed on `createReviewHash`. -/
def removeDuplicates (reviews : List Review) : List Review :=
  removeDuplicatesAux [] [] reviews

/-- First-seen-wins keyed deduplication as the specification describes it:
keep a record iff no earlier-kept record shares its identity key (the key
function is a parameter, so the specification's key and the code's key can be
compared). -/
def firstSeenBy (key : Review → String) : List String → List Review → List Review
  | _, [] => []
  | seen, r :: rest =>
    if key r ∈ seen then firstSeenBy key seen rest
    else r :: firstSeenBy key (key r :: seen) rest

/-- The identity key exactly as the specification words it: plain
concatenation of the first 100 characters of `content`, `author` and `date`,
lower-cased with all whitespace removed (no separators). -/
def specPlainKey (r : Review) : String :=
  removeWs (jsToLower (strTake (r.content.getD "") 100 ++ r.author.getD "" ++ r.date.getD ""))

/-! ## Blocking detection (`BaseScraper.checkForBlocking`) -/

/-- The fixed anti-bot keyword set from base-scraper.js. -/
def blockingKeywords : List String :=
  ["access denied", "blocked", "captcha", "please verify", "security check", "403", "429"]

/-- `BaseScraper.checkForBlocking`:
`blockingKeywords.some(k => title.toLowerCase().includes(k))`. -/
def checkForBlocking (title : String) : Bool :=
  blockingKeywords.any (fun k => strContains (jsToLower title) k)

/-! ## Date-range filter (`BaseScraper.filterReviewsByDateRange`) -/

/-- JS falsy test on an optional string: `null`/`undefined` or `''`. -/
def falsyStr (s : Option String) : Bool :=
  match s with
  | none => true
  | some str => str = ""

/-- `BaseScraper.filterReviewsByDateRange`:
`if (!startDate || !endDate) return reviews;` then keep a record iff its
`date` is truthy and `Helpers.isDateInRange(date, startDate, endDate)`. -/
def filterReviewsByDateRange (reviews : List Review) (startDate endDate : Option String) :
    List Review :=
  if falsyStr startDate ∨ falsyStr endDate then reviews
  else
    reviews.filter (fun r =>
      match r.date with
      | none => false
      | some ds => if ds = "" then false
                   else isDateInRange ds (startDate.getD "") (endDate.getD ""))

/-! ## Sorting (`processResults`, index.js lines 184–189)

`uniqueReviews.sort((a, b) => { const dateA = moment(a.date);
const dateB = moment(b.date); return dateB.isValid() && dateA.isValid() ?
dateB.diff(dateA) : 0; })` — a stable sort with the comparator below. -/

/-- The chronological value of a record's raw `date` field, `none` when the
field is `null` or the string does not parse. -/
def dateVal (r : Review) : Option Nat :=
  r.date.bind momentParse

/-- The sort comparator: `dateB - dateA` when both moments are valid, `0`
otherwise (sign matches `dateB.diff(dateA)` since `momentParse` orders
chronologically). -/
def jsCmp (a b : Review) : Int :=
  match dateVal a, dateVal b with
  | some va, some vb => (vb : Int) - (va : Int)
  | _, _ => 0

/-- Stable insertion: place `a` before the first element `b` with
`cmp a b ≤ 0`; elements comparing `0` with `a` that come later keep their
place after it only if they were never passed, which preserves input order on
every tie. -/
def jsInsert (cmp : α → α → Int) (a : α) : List α → List α
  | [] => [a]
  | b :: l => if cmp a b ≤ 0 then a :: b :: l else b :: jsInsert cmp a l

/-- Stable insertion sort, the model of ES2019 `Array.prototype.sort`. -/
def jsSort (cmp : α → α → Int) : List α → List α
  | [] => []
  | a :: l => jsInsert cmp a (jsSort cmp l)

/-- The sort performed by `processResults`. -/
def sortReviews (l : List Review) : List Review :=
  jsSort jsCmp l

/-- Tag each element with its position, starting at `n`. -/
def withIdx : Nat → List α → List (Nat × α)
  | _, [] => []
  | n, a :: l => (n, a) :: withIdx (n + 1) l

/-- The comparator lifted to index-tagged elements (indices are ignored). -/
def cmpSnd (cmp : α → α → Int) (x y : Nat × α) : Int :=
  cmp x.2 y.2

/-! ## Per-source harvest (`G2Scraper.scrapeReviews`, `CapterraScraper.scrapeReviews`)

The page driver is an explicit environment: whether navigation to each
pagination page succeeds, the page title seen after each load, and the records
the DOM extraction yields on that page.  `navInit`/`titleInit` describe the
initial `navigateToPage(url)` that g2-scraper.js performs before its loop. -/

structure PageEnv where
  navInit : Bool
  titleInit : String
  nav : Nat → Bool
  title : Nat → String
  pages : Nat → List Review

/-- The G2 pagination loop
(`while (allReviews.length < limit && currentPage <= maxPages)`), returning
the accumulated records and the list of loop pages requested.  `fuel` is an
upper bound on the remaining iterations; the loop is always entered with
`fuel > maxPages - page`, so fuel never runs out before the guard fails. -/
def g2Loop (env : PageEnv) (startDate endDate : Option String) (limit maxPages : Nat) :
    Nat → Nat → List Review → List Nat → List Review × List Nat
  | 0, _, acc, req => (acc, req)
  | fuel + 1, page, acc, req =>
    if acc.length < limit ∧ page ≤ maxPages then
      let req2 := req ++ [page]
      if !env.nav page then (acc, req2)
      else if checkForBlocking (env.title page) then (acc, req2)
      else
        let pageReviews := env.pages page
        if pageReviews.isEmpty then (acc, req2)
        else
          let filtered := filterReviewsByDateRange pageReviews startDate endDate
          let acc2 := acc ++ filtered
          if filtered.isEmpty then (acc2, req2)
          else g2Loop env startDate endDate limit maxPages fuel (page + 1) acc2 req2
    else (acc, req)

/-- `G2Scraper.scrapeReviews` with the requested loop pages also returned.
`!url` throws, caught by the method's own `try/catch` which returns `[]`;
a failed initial navigation or a blocked initial page also return `[]`;
`maxPages = Math.ceil(limit / 10)`; the result is `allReviews.slice(0, limit)`. -/
def g2ScrapeRun (env : PageEnv) (url : Option String) (startDate endDate : Option String)
    (limit : Nat) : List Review × List Nat :=
  if falsyStr url then ([], [])
  else if !env.navInit then ([], [])
  else if checkForBlocking env.titleInit then ([], [])
  else
    let maxPages := (limit + 9) / 10
    let r := g2Loop env startDate endDate limit maxPages (maxPages + 1) 1 [] []
    (r.1.take limit, r.2)

/-- The records returned by `G2Scraper.scrapeReviews`. -/
def g2ScrapeReviews (env : PageEnv) (url : Option String) (startDate endDate : Option String)
    (limit : Nat) : List Review :=
  (g2ScrapeRun env url startDate endDate limit).1

/-- `CapterraScraper.removeDuplicateReviews`: drop new records whose `content`
already occurs among the accumulated ones. -/
def removeDuplicateReviews (existing newReviews : List Review) : List Review :=
  newReviews.filter (fun r => !(existing.map (fun x => x.content)).contains r.content)

/-- The Capterra pagination loop; `maxPages = Math.ceil(limit / 20)`, and new
records pass through `removeDuplicateReviews` before accumulation. -/
def capterraLoop (env : PageEnv) (startDate endDate : Option String) (limit maxPages : Nat) :
    Nat → Nat → List Review → List Review × List Nat
  | 0, _, acc => (acc, [])
  | fuel + 1, page, acc =>
    if acc.length < limit ∧ page ≤ maxPages then
      if !env.nav page then (acc, [page])
      else if checkForBlocking (env.title page) then (acc, [page])
      else
        let pageReviews := env.pages page
        if pageReviews.isEmpty then (acc, [page])
        else
          let filtered := filterReviewsByDateRange pageReviews startDate endDate
          let acc2 := acc ++ removeDuplicateReviews acc filtered
          if filtered.isEmpty then (acc2, [page])
          else
            let r := capterraLoop env startDate endDate limit maxPages fuel (page + 1) acc2
            (r.1, page :: r.2)
    else (acc, [])

/-- `CapterraScraper.scrapeReviews`: no initial navigation outside the loop;
`!url` throws and is caught, returning `[]`; result is sliced to `limit`. -/
def capterraScrapeReviews (env : PageEnv) (url : Option String)
    (startDate endDate : Option String) (limit : Nat) : List Review :=
  if falsyStr url then []
  else
    let maxPages := (limit + 19) / 20
    (capterraLoop env startDate endDate limit maxPages (maxPages + 1) 1 []).1.take limit

/-! ## Orchestrator (`SaaSReviewsScraper.scrape`, index.js lines 50–116)

Each scraper's run through the per-scraper `try/catch` body ends in one of the
following ways, which is all the orchestrator loop observes. -/

inductive SourceOutcome where
  /-- `initialize()` returned `false`: logged, `continue`. -/
  | initFailed : SourceOutcome
  /-- no product URL found: warned, cleaned up, `continue`. -/
  | noUrl : SourceOutcome
  /-- `scrapeReviews` returned normally and cleanup succeeded. -/
  | ok : List Review → SourceOutcome
  /-- `scrapeReviews` returned normally but a later step (e.g. `cleanup`)
  threw after the reviews were pushed. -/
  | okThenThrows : List Review → String → SourceOutcome
  /-- an exception was thrown before any reviews were pushed. -/
  | throws : String → SourceOutcome
deriving DecidableEq, Repr

/-- One selected scraper together with how its processing ended. -/
structure ScraperRun where
  name : String
  outcome : SourceOutcome
deriving DecidableEq, Repr

/-- The records a run contributes to `allReviews`. -/
def collected : SourceOutcome → List Review
  | .ok rs => rs
  | .okThenThrows rs _ => rs
  | _ => []

/-- The `stats.errors` entries a run contributes: exactly the thrown
exceptions, tagged with the scraper's name. -/
def errorsOf (r : ScraperRun) : List (String × String) :=
  match r.outcome with
  | .okThenThrows _ msg => [(r.name, msg)]
  | .throws msg => [(r.name, msg)]
  | _ => []

/-- The `stats.sources` entries a run contributes: its name when it pushed a
non-empty review list. -/
def sourcesOf (r : ScraperRun) : List String :=
  if (collected r.outcome).length > 0 then [r.name] else []

/-- The mutable state of `SaaSReviewsScraper.scrape`: the merged review
accumulator and the `stats.sources` / `stats.errors` fields of
RunStatistics. -/
structure OrchState where
  allReviews : List Review
  sources : List String
  errors : List (String × String)
deriving DecidableEq, Repr

def initState : OrchState := ⟨[], [], []⟩

/-- One iteration of the per-scraper loop: push reviews and the source tag
when `reviews.length > 0`; on a thrown exception push
`{scraper, error}` onto `stats.errors` and continue. -/
def scrapeStep (st : OrchState) (r : ScraperRun) : OrchState :=
  match r.outcome with
  | .initFailed => st
  | .noUrl => st
  | .ok rs =>
    if rs.length > 0 then
      { st with allReviews := st.allReviews ++ rs, sources := st.sources ++ [r.name] }
    else st
  | .okThenThrows rs msg =>
    let st1 :=
      if rs.length > 0 then
        { st with allReviews := st.allReviews ++ rs, sources := st.sources ++ [r.name] }
      else st
    { st1 with errors := st1.errors ++ [(r.name, msg)] }
  | .throws msg => { st with errors := st.errors ++ [(r.name, msg)] }

/-- The whole per-scraper loop. -/
def runScrapers (runs : List ScraperRun) : OrchState :=
  runs.foldl scrapeStep initState

/-- The final check of `scrape`: `allReviews.length > 0` leads to
`processResults` and `return true`; otherwise `return false`. -/
def scrapeResult (runs : List ScraperRun) : Bool :=
  (runScrapers runs).allReviews.length > 0

/-- `process.exit(success ? 0 : 1)` in the CLI action. -/
def exitCode (runs : List ScraperRun) : Nat :=
  if scrapeResult runs then 0 else 1

/-- `processResults`' pipeline on the merged records: deduplicate, then the
stable sort by date descending (the subsequent `createReviewObject` map and
file write are the excluded persistence collaborator). -/
def processedReviews (reviews : List Review) : List Review :=
  sortReviews (removeDuplicates reviews)

/-! ## Specification-side predicates and concrete test data -/

/-- The date-range retention condition as the specification words it: the
record's date is non-null, parsable, and within `[sv, ev]`, both ends
inclusive. -/
def inRangeSpec (sv ev : Nat) (r : Review) : Bool :=
  match dateVal r with
  | some v => decide (sv ≤ v ∧ v ≤ ev)
  | none => false

/-- "Sorted by normalized date descending" between two neighbouring records:
whenever both dates are parsable, the left one is no older. -/
def dateDesc (a b : Review) : Prop :=
  ∀ va vb, dateVal a = some va → dateVal b = some vb → vb ≤ va

/-- Stability condition on index-tagged records: whenever two records are
tied under the sort comparator (equal or unparsable dates), their merge-order
indices still increase. -/
def tieKeepsIdx (x y : Nat × Review) : Prop :=
  jsCmp x.2 y.2 = 0 → x.1 < y.1

/-- Records whose specification identity keys (plain concatenation) collide
although their code identity keys (underscore-separated) differ. -/
def rvSplitA : Review :=
  { content := some "ab", author := some "c", date := some "2024-03-15" }

def rvSplitB : Review :=
  { content := some "a", author := some "bc", date := some "2024-03-15" }

/-- Two records with identical `content`, `author`, `date` coming from two
different sources — the deduplication scenario. -/
def rvSrc1 : Review :=
  { content := some "Great tool for team communication", author := some "John D.",
    date := some "2024-03-15", source := some "G2" }

def rvSrc2 : Review :=
  { content := some "Great tool for team communication", author := some "John D.",
    date := some "2024-03-15", source := some "Capterra" }

/-- Concrete records for the date-range filter witness. -/
def rvIn : Review := { content := some "in range", date := some "2024-06-15" }

def rvOld : Review := { content := some "too old", date := some "2019-01-01" }

def rvBadDate : Review := { content := some "unparsable", date := some "last week" }

def rvNoDate : Review := { content := some "no date" }

/-- A page of six extracted records. -/
def g2Page (tag : String) : List Review :=
  [{ content := some (tag ++ " one"), author := some "A", date := some "2024-05-06", source := some "G2" },
   { content := some (tag ++ " two"), author := some "B", date := some "2024-05-05", source := some "G2" },
   { content := some (tag ++ " three"), author := some "C", date := some "2024-05-04", source := some "G2" },
   { content := some (tag ++ " four"), author := some "D", date := some "2024-05-03", source := some "G2" },
   { content := some (tag ++ " five"), author := some "E", date := some "2024-05-02", source := some "G2" },
   { content := some (tag ++ " six"), author := some "F", date := some "2024-05-01", source := some "G2" }]

/-- A source offering two pages of six records each and nothing after. -/
def envTwoPages : PageEnv :=
  { navInit := true
    titleInit := "Slack Reviews 2024"
    nav := fun _ => true
    title := fun _ => "Slack Reviews 2024"
    pages := fun p => if p = 1 then g2Page "first" else if p = 2 then g2Page "second" else [] }

/-- A source whose every pagination page answers with an anti-bot block
page. -/
def envBlocked : PageEnv :=
  { navInit := true
    titleInit := "Slack Reviews 2024"
    nav := fun _ => true
    title := fun _ => "Access Denied"
    pages := fun _ => g2Page "first" }

/-! # Theorems -/

/-! ## Deduplication lemmas -/

theorem firstSeenBy_length_le (key : Review → String) :
    ∀ (X : List Review) (seen : List String), (firstSeenBy key seen X).length ≤ X.length := by
  intro X
  induction X with
  | nil => intro seen; simp [firstSeenBy]
  | cons r rest ih =>
    intro seen
    by_cases h : key r ∈ seen
    · simp only [firstSeenBy, if_pos h]
      exact Nat.le_succ_of_le (ih seen)
    · simp only [firstSeenBy, if_neg h, List.length_cons]
      exact Nat.succ_le_succ (ih (key r :: seen))

theorem firstSeenBy_idem (key : Review → String) :
    ∀ (X : List Review) (seen : List String),
      firstSeenBy key seen (firstSeenBy key seen X) = firstSeenBy key seen X := by
  intro X
  induction X with
  | nil => intro seen; rfl
  | cons r rest ih =>
    intro seen
    by_cases h : key r ∈ seen
    · simp only [firstSeenBy, if_pos h]
      exact ih seen
    · simp only [firstSeenBy, if_neg h]
      rw [ih (key r :: seen)]

theorem removeDuplicatesAux_eq_firstSeenBy :
    ∀ (rest : List Review) (seen : List String) (acc : List Review),
      removeDuplicatesAux seen acc rest = acc ++ firstSeenBy createReviewHash seen rest := by
  intro rest
  induction rest with
  | nil => intro seen acc; simp [removeDuplicatesAux, firstSeenBy]
  | cons r rs ih =>
    intro seen acc
    by_cases h : createReviewHash r ∈ seen
    · simp only [removeDuplicatesAux, firstSeenBy, if_pos h]
      exact ih seen acc
    · simp only [removeDuplicatesAux, firstSeenBy, if_neg h]
      rw [ih (createReviewHash r :: seen) (acc ++ [r]), List.append_assoc]
      rfl

theorem removeDuplicates_eq (X : List Review) :
    removeDuplicates X = firstSeenBy createReviewHash [] X := by
  simpa [removeDuplicates] using removeDuplicatesAux_eq_firstSeenBy X [] []

theorem createReviewHash_congr (r1 r2 : Review) (hc : r1.content = r2.content)
    (ha : r1.author = r2.author) (hd : r1.date = r2.date) :
    createReviewHash r1 = createReviewHash r2 := by
  simp only [createReviewHash, hc, ha, hd]

/-- C1 counterexample: the code's identity key joins the three fields with
`'_'` separators, so two records whose field boundaries shift — here
`content = "ab", author = "c"` against `content = "a", author = "bc"` with
equal dates — collide under the specification's plain-concatenation key but
not under the code's key: `removeDuplicates` keeps both records while the
claimed first-seen-per-plain-key deduplication keeps only the first. -/
theorem dedup_plain_key_counterexample :
    specPlainKey rvSplitA = specPlainKey rvSplitB ∧
    firstSeenBy specPlainKey [] [rvSplitA, rvSplitB] = [rvSplitA] ∧
    removeDuplicates [rvSplitA, rvSplitB] = [rvSplitA, rvSplitB] ∧
    removeDuplicates [rvSplitA, rvSplitB] ≠ firstSeenBy specPlainKey [] [rvSplitA, rvSplitB] := by
  refine ⟨by decide, by decide, by decide, by decide⟩

/-- C1 (amended): for every merged list, `removeDuplicates` keeps exactly the
first-seen record for each identity key, where the key is the first 100
characters of `content`, `author` and `date` joined with `'_'` separators,
lower-cased with all whitespace removed; in particular two records with
identical `content`, `author` and `date` (e.g. one from each of two sources)
deduplicate to the first one alone. -/
theorem dedup_first_seen_with_separators :
    (∀ X : List Review, removeDuplicates X = firstSeenBy createReviewHash [] X) ∧
    (∀ r1 r2 : Review, r1.content = r2.content → r1.author = r2.author → r1.date = r2.date →
      removeDuplicates [r1, r2] = [r1]) := by
  constructor
  · exact removeDuplicates_eq
  · intro r1 r2 hc ha hd
    have hh : createReviewHash r2 = createReviewHash r1 :=
      createReviewHash_congr r2 r1 hc.symm ha.symm hd.symm
    rw [removeDuplicates_eq]
    simp [firstSeenBy, hh]

/-- C1 witness: two concrete records with identical `content`, `author`,
`date` but different `source` tags merge to the first record alone. -/
theorem dedup_first_seen_with_separators_witness :
    removeDuplicates [rvSrc1, rvSrc2] = [rvSrc1] :=
  dedup_first_seen_with_separators.2 rvSrc1 rvSrc2 rfl rfl rfl

/-- C8: deduplication is idempotent and non-expanding:
`dedup (dedup X) = dedup X` and `|dedup X| ≤ |X|`. -/
theorem dedup_idempotent_nonexpanding (X : List Review) :
    removeDuplicates (removeDuplicates X) = removeDuplicates X ∧
    (removeDuplicates X).length ≤ X.length := by
  constructor
  · rw [removeDuplicates_eq, removeDuplicates_eq X, firstSeenBy_idem]
  · rw [removeDuplicates_eq]
    exact firstSeenBy_length_le createReviewHash X []

/-! ## Date-range filter -/

/-- C3: with both bounds present (and parsable, as the CLI validation
guarantees), the filter retains a record iff its date is non-null, parsable,
and within `[startDate, endDate]` inclusive — records with null or unparsable
dates are dropped; with either bound absent (null/empty) the filter is the
identity. -/
theorem date_filter_iff_in_range (reviews : List Review) (ss es : String) (sv ev : Nat)
    (hs : momentParse ss = some sv) (he : momentParse es = some ev) :
    filterReviewsByDateRange reviews (some ss) (some es) = reviews.filter (inRangeSpec sv ev) ∧
    ∀ (s e : Option String), (falsyStr s ∨ falsyStr e) →
      filterReviewsByDateRange reviews s e = reviews := by
  constructor
  · have hne : ¬(falsyStr (some ss) = true ∨ falsyStr (some es) = true) := by
      rintro (h | h)
      · have : ss = "" := by simpa [falsyStr] using h
        rw [this] at hs
        simp [momentParse] at hs
      · have : es = "" := by simpa [falsyStr] using h
        rw [this] at he
        simp [momentParse] at he
    unfold filterReviewsByDateRange
    rw [if_neg hne]
    congr 1
    funext r
    cases hd : r.date with
    | none => simp [inRangeSpec, dateVal, hd]
    | some ds =>
      by_cases hds : ds = ""
      · subst hds
        simp [inRangeSpec, dateVal, hd, momentParse]
      · simp only [hds, if_false, Option.getD_some, inRangeSpec, dateVal, hd, Option.some_bind]
        unfold isDateInRange
        rw [hs, he]
        cases hv : momentParse ds <;> simp
  · intro s e h
    unfold filterReviewsByDateRange
    rw [if_pos h]

/-- C3 witness: a concrete mixed list and the range 2024-01-01..2024-12-31;
also the identity behaviour with an absent start bound. -/
theorem date_filter_iff_in_range_witness :
    (filterReviewsByDateRange [rvIn, rvOld, rvBadDate, rvNoDate]
        (some "2024-01-01") (some "2024-12-31") =
      List.filter (inRangeSpec 20240101 20241231) [rvIn, rvOld, rvBadDate, rvNoDate]) ∧
    filterReviewsByDateRange [rvIn, rvOld, rvBadDate, rvNoDate] none (some "2024-12-31") =
      [rvIn, rvOld, rvBadDate, rvNoDate] :=
  ⟨(date_filter_iff_in_range [rvIn, rvOld, rvBadDate, rvNoDate]
      "2024-01-01" "2024-12-31" 20240101 20241231 rfl rfl).1,
   (date_filter_iff_in_range [rvIn, rvOld, rvBadDate, rvNoDate]
      "2024-01-01" "2024-12-31" 20240101 20241231 rfl rfl).2 none (some "2024-12-31")
      (Or.inl (by decide))⟩

/-! ## Sorting lemmas -/

theorem jsInsert_perm (cmp : α → α → Int) (a : α) :
    ∀ l : List α, (jsInsert cmp a l).Perm (a :: l) := by
  intro l
  induction l with
  | nil => exact List.Perm.refl _
  | cons b t ih =>
    unfold jsInsert
    by_cases h : cmp a b ≤ 0
    · rw [if_pos h]
    · rw [if_neg h]
      exact (ih.cons b).trans (List.Perm.swap a b t)

theorem jsSort_perm (cmp : α → α → Int) : ∀ l : List α, (jsSort cmp l).Perm l := by
  intro l
  induction l with
  | nil => exact List.Perm.refl _
  | cons a t ih => exact (jsInsert_perm cmp a (jsSort cmp t)).trans (ih.cons a)

theorem jsInsert_head (cmp : α → α → Int) (a : α) :
    ∀ (l : List α) (x : α), (jsInsert cmp a l).head? = some x → x = a ∨ l.head? = some x := by
  intro l x
  cases l with
  | nil => intro h; simp [jsInsert] at h; exact Or.inl h.symm
  | cons b t =>
    unfold jsInsert
    by_cases h : cmp a b ≤ 0
    · rw [if_pos h]; intro hx; simp at hx; exact Or.inl hx.symm
    · rw [if_neg h]; intro hx; simp at hx; exact Or.inr (by simp [hx])

theorem jsCmp_le_dateDesc {a b : Review} (h : jsCmp a b ≤ 0) : dateDesc a b := by
  intro va vb hva hvb
  unfold jsCmp at h
  rw [hva, hvb] at h
  simp at h
  omega

theorem jsCmp_pos_dateDesc {a b : Review} (h : 0 < jsCmp a b) : dateDesc b a := by
  intro vb va hvb hva
  unfold jsCmp at h
  rw [hva, hvb] at h
  simp at h
  omega

theorem jsCmp_antisymm (a b : Review) : jsCmp b a = -jsCmp a b := by
  unfold jsCmp
  cases dateVal a <;> cases dateVal b <;> simp [neg_sub]

theorem chain_dateDesc_insert (a : Review) :
    ∀ l : List Review, List.Chain' dateDesc l → List.Chain' dateDesc (jsInsert jsCmp a l) := by
  intro l
  induction l with
  | nil => intro _; simp [jsInsert]
  | cons b t ih =>
    intro h
    obtain ⟨hb, ht⟩ := List.chain'_cons'.mp h
    unfold jsInsert
    by_cases hc : jsCmp a b ≤ 0
    · rw [if_pos hc]
      refine List.chain'_cons'.mpr ⟨?_, h⟩
      intro y hy
      simp at hy
      subst hy
      exact jsCmp_le_dateDesc hc
    · rw [if_neg hc]
      refine List.chain'_cons'.mpr ⟨?_, ih ht⟩
      intro y hy
      rcases jsInsert_head jsCmp a t y hy with rfl | hy'
      · exact jsCmp_pos_dateDesc (lt_of_not_le hc)
      · exact hb y hy'

theorem chain_dateDesc_sort (l : List Review) : List.Chain' dateDesc (sortReviews l) := by
  unfold sortReviews
  induction l with
  | nil => simp [jsSort]
  | cons a t ih => exact chain_dateDesc_insert a (jsSort jsCmp t) ih

theorem jsInsert_map_snd (cmp : Review → Review → Int) (x : Nat × Review) :
    ∀ l : List (Nat × Review),
      (jsInsert (cmpSnd cmp) x l).map Prod.snd = jsInsert cmp x.2 (l.map Prod.snd) := by
  intro l
  induction l with
  | nil => rfl
  | cons y t ih =>
    by_cases h : cmp x.2 y.2 ≤ 0
    · have h2 : cmpSnd cmp x y ≤ 0 := h
      simp [jsInsert, h, h2]
    · have h2 : ¬cmpSnd cmp x y ≤ 0 := h
      simp [jsInsert, h, h2, ih]

theorem jsSort_map_snd (cmp : Review → Review → Int) :
    ∀ l : List (Nat × Review), (jsSort (cmpSnd cmp) l).map Prod.snd = jsSort cmp (l.map Prod.snd) := by
  intro l
  induction l with
  | nil => rfl
  | cons x t ih =>
    unfold jsSort
    rw [List.map_cons, jsInsert_map_snd, ih]

theorem pairwise_tie_insert (x : Nat × Review) :
    ∀ l : List (Nat × Review), List.Pairwise tieKeepsIdx l → (∀ y ∈ l, x.1 < y.1) →
      List.Pairwise tieKeepsIdx (jsInsert (cmpSnd jsCmp) x l) := by
  intro l
  induction l with
  | nil => intro _ _; simp [jsInsert]
  | cons b t ih =>
    intro h hidx
    obtain ⟨hb, ht⟩ := List.pairwise_cons.mp h
    unfold jsInsert
    by_cases hc : cmpSnd jsCmp x b ≤ 0
    · rw [if_pos hc]
      refine List.pairwise_cons.mpr ⟨?_, h⟩
      intro y hy _
      exact hidx y hy
    · rw [if_neg hc]
      refine List.pairwise_cons.mpr ⟨?_, ?_⟩
      · intro y hy
        have hmem : y = x ∨ y ∈ t := by
          have := (jsInsert_perm (cmpSnd jsCmp) x t).mem_iff.mp hy
          simpa using this
        rcases hmem with hyx | hyt
        · rw [hyx]
          intro h0
          exfalso
          have hpos : 0 < jsCmp x.2 b.2 := lt_of_not_le hc
          rw [jsCmp_antisymm] at h0
          omega
        · exact hb y hyt
      · exact ih ht (fun y hy => hidx y (List.mem_cons_of_mem b hy))

theorem pairwise_tie_sort :
    ∀ l : List (Nat × Review), List.Pairwise (fun x y => x.1 < y.1) l →
      List.Pairwise tieKeepsIdx (jsSort (cmpSnd jsCmp) l) := by
  intro l
  induction l with
  | nil => intro _; simp [jsSort]
  | cons x t ih =>
    intro h
    obtain ⟨hx, ht⟩ := List.pairwise_cons.mp h
    unfold jsSort
    refine pairwise_tie_insert x (jsSort (cmpSnd jsCmp) t) (ih ht) ?_
    intro y hy
    exact hx y ((jsSort_perm (cmpSnd jsCmp) t).mem_iff.mp hy)

theorem withIdx_map_snd : ∀ (l : List Review) (n : Nat), (withIdx n l).map Prod.snd = l := by
  intro l
  induction l with
  | nil => intro n; rfl
  | cons a t ih => intro n; simp [withIdx, ih]

theorem withIdx_ge : ∀ (l : List Review) (n : Nat) (y : Nat × Review), y ∈ withIdx n l → n ≤ y.1 := by
  intro l
  induction l with
  | nil => intro n y h; simp [withIdx] at h
  | cons a t ih =>
    intro n y h
    rcases (List.mem_cons).mp h with rfl | h'
    · exact Nat.le_refl n
    · exact Nat.le_of_succ_le (ih (n + 1) y h')

theorem withIdx_pairwise :
    ∀ (l : List Review) (n : Nat), List.Pairwise (fun x y => x.1 < y.1) (withIdx n l) := by
  intro l
  induction l with
  | nil => intro n; simp [withIdx]
  | cons a t ih =>
    intro n
    refine List.pairwise_cons.mpr ⟨?_, ih (n + 1)⟩
    intro y hy
    exact Nat.lt_of_succ_le (withIdx_ge t (n + 1) y hy)

/-- C2: the sort of `processResults` (the code's comparator under a stable
sort) outputs a permutation of its input in which every pair of adjacent
records with parsable dates is ordered newest first, and — witnessed on the
index-tagged run of the same algorithm, whose projection is exactly the
output — every pair of records that the comparator ties (equal or unparsable
dates) keeps its relative merge order. -/
theorem sort_desc_and_stable (l : List Review) :
    (sortReviews l).Perm l ∧
    List.Chain' dateDesc (sortReviews l) ∧
    (jsSort (cmpSnd jsCmp) (withIdx 0 l)).map Prod.snd = sortReviews l ∧
    List.Pairwise tieKeepsIdx (jsSort (cmpSnd jsCmp) (withIdx 0 l)) := by
  refine ⟨jsSort_perm jsCmp l, chain_dateDesc_sort l, ?_, pairwise_tie_sort _ (withIdx_pairwise l 0)⟩
  rw [jsSort_map_snd, withIdx_map_snd]
  rfl

/-! ## Orchestrator lemmas -/

theorem scrapeStep_allReviews (st : OrchState) (r : ScraperRun) :
    (scrapeStep st r).allReviews = st.allReviews ++ collected r.outcome := by
  cases hr : r.outcome with
  | initFailed => simp [scrapeStep, collected, hr]
  | noUrl => simp [scrapeStep, collected, hr]
  | ok rs =>
    by_cases h : rs.length > 0
    · simp [scrapeStep, collected, hr, h]
    · have hnil : rs = [] := List.length_eq_zero.mp (Nat.eq_zero_of_not_pos h)
      simp [scrapeStep, collected, hr, h, hnil]
  | okThenThrows rs msg =>
    by_cases h : rs.length > 0
    · simp [scrapeStep, collected, hr, h]
    · have hnil : rs = [] := List.length_eq_zero.mp (Nat.eq_zero_of_not_pos h)
      simp [scrapeStep, collected, hr, h, hnil]
  | throws msg => simp [scrapeStep, collected, hr]

theorem scrapeStep_errors (st : OrchState) (r : ScraperRun) :
    (scrapeStep st r).errors = st.errors ++ errorsOf r := by
  cases hr : r.outcome with
  | initFailed => simp [scrapeStep, errorsOf, hr]
  | noUrl => simp [scrapeStep, errorsOf, hr]
  | ok rs =>
    by_cases h : rs.length > 0 <;> simp [scrapeStep, errorsOf, hr, h]
  | okThenThrows rs msg =>
    by_cases h : rs.length > 0 <;> simp [scrapeStep, errorsOf, hr, h]
  | throws msg => simp [scrapeStep, errorsOf, hr]

theorem scrapeStep_sources (st : OrchState) (r : ScraperRun) :
    (scrapeStep st r).sources = st.sources ++ sourcesOf r := by
  cases hr : r.outcome with
  | initFailed => simp [scrapeStep, sourcesOf, collected, hr]
  | noUrl => simp [scrapeStep, sourcesOf, collected, hr]
  | ok rs =>
    by_cases h : rs.length > 0 <;> simp [scrapeStep, sourcesOf, collected, hr, h]
  | okThenThrows rs msg =>
    by_cases h : rs.length > 0 <;> simp [scrapeStep, sourcesOf, collected, hr, h]
  | throws msg => simp [scrapeStep, sourcesOf, collected, hr]

theorem foldl_scrapeStep_allReviews :
    ∀ (runs : List ScraperRun) (st : OrchState),
      (runs.foldl scrapeStep st).allReviews =
        st.allReviews ++ (runs.map (fun r => collected r.outcome)).flatten := by
  intro runs
  induction runs with
  | nil => intro st; simp
  | cons r t ih =>
    intro st
    simp only [List.foldl_cons, List.map_cons, List.flatten_cons, ih, scrapeStep_allReviews,
      List.append_assoc]

theorem foldl_scrapeStep_errors :
    ∀ (runs : List ScraperRun) (st : OrchState),
      (runs.foldl scrapeStep st).errors = st.errors ++ (runs.map errorsOf).flatten := by
  intro runs
  induction runs with
  | nil => intro st; simp
  | cons r t ih =>
    intro st
    simp only [List.foldl_cons, List.map_cons, List.flatten_cons, ih, scrapeStep_errors,
      List.append_assoc]

theorem foldl_scrapeStep_sources :
    ∀ (runs : List ScraperRun) (st : OrchState),
      (runs.foldl scrapeStep st).sources = st.sources ++ (runs.map sourcesOf).flatten := by
  intro runs
  induction runs with
  | nil => intro st; simp
  | cons r t ih =>
    intro st
    simp only [List.foldl_cons, List.map_cons, List.flatten_cons, ih, scrapeStep_sources,
      List.append_assoc]

theorem runScrapers_allReviews (runs : List ScraperRun) :
    (runScrapers runs).allReviews = (runs.map (fun r => collected r.outcome)).flatten := by
  simpa [initState] using foldl_scrapeStep_allReviews runs initState

theorem runScrapers_errors (runs : List ScraperRun) :
    (runScrapers runs).errors = (runs.map errorsOf).flatten := by
  simpa [initState] using foldl_scrapeStep_errors runs initState

theorem runScrapers_sources (runs : List ScraperRun) :
    (runScrapers runs).sources = (runs.map sourcesOf).flatten := by
  simpa [initState] using foldl_scrapeStep_sources runs initState

/-- C5: the run returns failure — and the CLI exits non-zero — exactly when
every selected source contributed zero collected records; whenever at least
one source contributes a record, the run succeeds. -/
theorem run_fails_iff_no_records (runs : List ScraperRun) :
    (scrapeResult runs = false ↔ ∀ r ∈ runs, collected r.outcome = []) ∧
    (scrapeResult runs = true ↔ ∃ r ∈ runs, collected r.outcome ≠ []) ∧
    (exitCode runs ≠ 0 ↔ ∀ r ∈ runs, collected r.outcome = []) := by
  have hfalse : scrapeResult runs = false ↔ ∀ r ∈ runs, collected r.outcome = [] := by
    unfold scrapeResult
    rw [runScrapers_allReviews]
    simp only [decide_eq_false_iff_not, Nat.not_lt, Nat.le_zero, List.length_eq_zero,
      List.flatten_eq_nil_iff, List.mem_map]
    constructor
    · intro h r hr
      exact h _ ⟨r, hr, rfl⟩
    · rintro h _ ⟨r, hr, rfl⟩
      exact h r hr
  have htrue : scrapeResult runs = true ↔ ∃ r ∈ runs, collected r.outcome ≠ [] := by
    rw [← Bool.not_eq_false, hfalse]
    push_neg
    rfl
  have hexit : (exitCode runs ≠ 0) ↔ scrapeResult runs = false := by
    unfold exitCode
    cases hsr : scrapeResult runs <;> simp [hsr]
  exact ⟨hfalse, htrue, hexit.trans hfalse⟩

/-- C6: a thrown per-source exception is recorded in the statistics under the
source's tag and changes nothing else: the merged reviews and the source list
are exactly those of the same run without the failing source, and the overall
success is unchanged — later adapters still run and contribute. -/
theorem per_source_isolation (pre post : List ScraperRun) (n m : String) :
    (runScrapers (pre ++ ⟨n, .throws m⟩ :: post)).allReviews =
      (runScrapers (pre ++ post)).allReviews ∧
    (n, m) ∈ (runScrapers (pre ++ ⟨n, .throws m⟩ :: post)).errors ∧
    (runScrapers (pre ++ ⟨n, .throws m⟩ :: post)).sources =
      (runScrapers (pre ++ post)).sources ∧
    scrapeResult (pre ++ ⟨n, .throws m⟩ :: post) = scrapeResult (pre ++ post) := by
  have hrev : (runScrapers (pre ++ ⟨n, .throws m⟩ :: post)).allReviews =
      (runScrapers (pre ++ post)).allReviews := by
    rw [runScrapers_allReviews, runScrapers_allReviews]
    simp [collected]
  refine ⟨hrev, ?_, ?_, ?_⟩
  · rw [runScrapers_errors]
    simp [errorsOf]
  · rw [runScrapers_sources, runScrapers_sources]
    simp [sourcesOf, collected]
  · unfold scrapeResult
    rw [hrev]

/-! ## Pagination, blocking, totality -/

/-- C4 counterexample: with `limit = 10`, no date range, and a source
offering two pages of 6 records each, `G2Scraper.scrapeReviews` returns 6
records, not 10: `maxPages = Math.ceil(10 / 10) = 1` stops the loop after the
first page, before the accumulated count can reach the limit. -/
theorem g2_two_pages_limit_counterexample :
    (g2ScrapeReviews envTwoPages (some "https://www.g2.com/products/slack/reviews")
        none none 10).length = 6 ∧
    (g2ScrapeReviews envTwoPages (some "https://www.g2.com/products/slack/reviews")
        none none 10).length ≠ 10 := by
  refine ⟨by decide, by decide⟩

/-- C4 (amended): with `limit = 10`, no date range, and a source offering two
pages of 6 records each, the harvest returns exactly the 6 records of the
first page and requests no page beyond page 1 (in particular no third page):
the adapter-specific cap `maxPages = Math.ceil(limit / 10) = 1` (termination
rule (d)) fires before the accumulated-count rule (a) can. -/
theorem g2_two_pages_capped_at_first_page :
    g2ScrapeReviews envTwoPages (some "https://www.g2.com/products/slack/reviews")
        none none 10 = g2Page "first" ∧
    (g2ScrapeRun envTwoPages (some "https://www.g2.com/products/slack/reviews")
        none none 10).2 = [1] := by
  refine ⟨by decide, by decide⟩

/-- C7 counterexample: a run whose source is blocked on every pagination page
(title "Access Denied") aborts the harvest, yet `stats.errors` stays empty —
blocking is only logged, never recorded in RunStatistics, because the scraper
returns `[]` normally instead of throwing. -/
theorem blocking_not_in_stats_counterexample :
    checkForBlocking "Access Denied" = true ∧
    g2ScrapeReviews envBlocked (some "https://www.g2.com/products/slack/reviews")
        none none 10 = [] ∧
    (runScrapers [⟨"G2", .ok (g2ScrapeReviews envBlocked
        (some "https://www.g2.com/products/slack/reviews") none none 10)⟩]).errors = [] := by
  refine ⟨by decide, by decide, by decide⟩

/-- C7 (amended): after a pagination page loads, its title is checked against
the fixed keyword set (case-insensitive substring); on a match the source's
harvest aborts immediately — the page's records are not extracted, no further
page is requested, and there is no retry — but the condition is only logged:
a source that returns normally leaves `stats.errors` empty. -/
theorem blocking_aborts_without_stats_entry (env : PageEnv)
    (startDate endDate : Option String) (limit maxPages fuel page : Nat)
    (acc : List Review) (req : List Nat)
    (hnav : env.nav page = true) (hblock : checkForBlocking (env.title page) = true)
    (hacc : acc.length < limit) (hpage : page ≤ maxPages) :
    g2Loop env startDate endDate limit maxPages (fuel + 1) page acc req = (acc, req ++ [page]) ∧
    ∀ (name : String) (rs : List Review), (runScrapers [⟨name, .ok rs⟩]).errors = [] := by
  constructor
  · unfold g2Loop
    rw [if_pos ⟨hacc, hpage⟩, hnav]
    simp [hblock]
  · intro name rs
    rw [runScrapers_errors]
    simp [errorsOf]

/-- C7 witness: the blocked environment at page 1 with an empty accumulator:
the loop aborts at once and a normally-returning source records no error. -/
theorem blocking_aborts_without_stats_entry_witness :
    g2Loop envBlocked none none 10 1 2 1 [] [] = ([], [1]) ∧
    (runScrapers [⟨"G2", .ok []⟩]).errors = [] :=
  ⟨(blocking_aborts_without_stats_entry envBlocked none none 10 1 1 1 [] []
      rfl (by decide) (by decide) (by decide)).1,
   (blocking_aborts_without_stats_entry envBlocked none none 10 1 1 1 [] []
      rfl (by decide) (by decide) (by decide)).2 "G2" []⟩

/-- C9 counterexample: a raw rating of `-3` is not stored as the clamped `0`
in the final record — `normalizeRating(-3) = 0` is falsy, so
`normalizeRating(data.rating) || null` stores `null`. -/
theorem negative_rating_stored_null_counterexample :
    (createReviewObject "2025-08-14 09:00:00" { rating := some (-3) }).rating = none ∧
    (createReviewObject "2025-08-14 09:00:00" { rating := some (-3) }).rating ≠ some 0 := by
  refine ⟨by decide, by decide⟩

/-- C9 (amended): the rating stored in the final output record is either null
or a number in `(0, 5]` that is a multiple of one tenth; ratings above 5 are
clamped to 5; ratings that are null, non-positive, or round to `0` are stored
as null (the clamped-to-0 value is coerced to null by `|| null`); in-range
ratings are rounded to the nearest tenth. -/
theorem rating_normalized_invariant (now : String) (data : Review) :
    ((createReviewObject now data).rating = none ∨
      ∃ q : ℚ, (createReviewObject now data).rating = some q ∧ 0 < q ∧ q ≤ 5 ∧ (q * 10).den = 1) ∧
    (∀ q0 : ℚ, data.rating = some q0 → 5 < q0 → (createReviewObject now data).rating = some 5) ∧
    (∀ q0 : ℚ, data.rating = some q0 → q0 ≤ 0 → (createReviewObject now data).rating = none) ∧
    (∀ q0 : ℚ, data.rating = some q0 → 0 < q0 → q0 ≤ 5 →
      (createReviewObject now data).rating =
        if jsRound (q0 * 10) = 0 then none else some ((jsRound (q0 * 10) : ℚ) / 10)) := by
  have hrat : (createReviewObject now data).rating =
      (fun nr : ℚ => if nr = 0 then none else some nr) (normalizeRating data.rating) := rfl
  refine ⟨?_, ?_, ?_, ?_⟩
  · rw [hrat]
    cases hd : data.rating with
    | none => simp [normalizeRating]
    | some q =>
      simp only [normalizeRating]
      by_cases h0 : q = 0 ∨ q < 0
      · simp [h0]
      · rw [if_neg h0]
        by_cases h5 : q > 5
        · rw [if_pos h5]
          refine Or.inr ⟨5, by norm_num⟩
        · rw [if_neg h5]
          set k : ℤ := jsRound (q * 10) with hk
          have hq0 : 0 < q := by
            push_neg at h0
            rcases lt_or_eq_of_le h0.2 with h | h
            · exact h
            · exact absurd h.symm h0.1
          have hkn : 0 ≤ k := by
            rw [hk]
            unfold jsRound
            exact Int.le_floor.mpr (by positivity)
          have hku : k ≤ 50 := by
            rw [hk]
            unfold jsRound
            have h1 : q * 10 + 1 / 2 ≤ (101 : ℚ) / 2 := by
              push_neg at h5
              linarith
            calc ⌊q * 10 + 1 / 2⌋ ≤ ⌊(101 : ℚ) / 2⌋ := Int.floor_le_floor h1
              _ = 50 := by
                rw [Int.floor_eq_iff]
                norm_num
          by_cases hz : ((k : ℚ) / 10) = 0
          · simp [hz]
          · right
            refine ⟨(k : ℚ) / 10, by simp [hz], ?_, ?_, ?_⟩
            · have hk0 : k ≠ 0 := by
                intro h
                rw [h] at hz
                simp at hz
              have hk1 : 1 ≤ k := by omega
              have : (1 : ℚ) ≤ (k : ℚ) := by exact_mod_cast hk1
              positivity
            · rw [div_le_iff₀ (by norm_num : (0:ℚ) < 10)]
              exact_mod_cast hku
            · have : (k : ℚ) / 10 * 10 = (k : ℚ) := by field_simp
              rw [this, Rat.den_intCast]
  · intro q0 hq hgt
    rw [hrat, hq]
    simp only [normalizeRating]
    have h0 : ¬(q0 = 0 ∨ q0 < 0) := by
      push_neg
      constructor <;> [linarith; linarith]
    rw [if_neg h0, if_pos hgt]
    norm_num
  · intro q0 hq hle
    rw [hrat, hq]
    simp only [normalizeRating]
    have h0 : q0 = 0 ∨ q0 < 0 := by
      rcases lt_or_eq_of_le hle with h | h
      · exact Or.inr h
      · exact Or.inl h
    rw [if_pos h0]
    simp
  · intro q0 hq hpos hle
    rw [hrat, hq]
    simp only [normalizeRating]
    have h0 : ¬(q0 = 0 ∨ q0 < 0) := by
      push_neg
      constructor <;> [linarith; linarith]
    have h5 : ¬q0 > 5 := by linarith
    rw [if_neg h0, if_neg h5]
    by_cases hz : jsRound (q0 * 10) = 0
    · simp [hz]
    · have : ((jsRound (q0 * 10) : ℚ) / 10) ≠ 0 := by
        simp [hz]
      simp [hz, this]

/-- C9 witness: rating 6 clamps to 5; rating −3 is stored as null; rating 3.7
is kept as 3.7. -/
theorem rating_normalized_invariant_witness :
    (createReviewObject "t" { rating := some 6 }).rating = some 5 ∧
    (createReviewObject "t" { rating := some (-3) }).rating = none ∧
    (createReviewObject "t" { rating := some (37 / 10) }).rating = some (37 / 10) := by
  refine ⟨(rating_normalized_invariant "t" _).2.1 6 rfl (by norm_num),
    (rating_normalized_invariant "t" _).2.2.1 (-3) rfl (by norm_num), ?_⟩
  have h := (rating_normalized_invariant "t" { rating := some (37 / 10) }).2.2.2
    (37 / 10) rfl (by norm_num) (by norm_num)
  rw [h]
  norm_num [jsRound]

/-- C10: for every page-driver environment and every input, both scrapers'
`scrapeReviews` return a list (every internal failure path — missing url,
failed navigation, blocking, empty extraction — returns normally in the
embedding, mirroring the outer `try/catch` that converts any throw to `[]`),
and the final `slice(0, limit)` bounds its length by `limit`. -/
theorem scrapeReviews_total_and_bounded (env : PageEnv) (url : Option String)
    (startDate endDate : Option String) (limit : Nat) :
    (g2ScrapeReviews env url startDate endDate limit).length ≤ limit ∧
    (capterraScrapeReviews env url startDate endDate limit).length ≤ limit := by
  constructor
  · unfold g2ScrapeReviews g2ScrapeRun
    split
    · simp
    · split
      · simp
      · split
        · simp
        · simp [List.length_take]
  · unfold capterraScrapeReviews
    split
    · simp
    · simp [List.length_take]

end Scraper
